import Mathlib

/-!
Verification development for the namecheap-checker program
(`src/namecheap-checker.py`).  The program is a single pipeline:
fetch the domain list over HTTP, parse the XML response, and print a
report (sorted listing, upcoming renewals, statistics, calendar view).

This file gives a shallow embedding of the program:

* `DateTime`, `validDT`, `tsOf`, `deltaDays` model the `datetime` values
  the program manipulates together with Python's `datetime` subtraction
  (`timedelta.days` is the floor of the difference in days);
* `strptimeEmb` models `datetime.strptime` for the format directives the
  program uses (`%m %d %Y %y %H %M %S` plus literal separators): the
  format string is compiled to tokens and matched against the input with
  the same candidate order and backtracking as CPython's `_strptime`
  regexes, followed by the constructor's calendar validation;
* `parse_date`, `get_domains`, `display_domains` are translated from the
  source, with console output, the diagnostic file write, and Python
  runtime errors (`TypeError`, `ZeroDivisionError`) made explicit.
-/

namespace Namecheap

/-- Digit character class of the `_strptime` regexes (ASCII `0`-`9`). -/
def isDig (c : Char) : Bool := 48 ≤ c.toNat && c.toNat ≤ 57

/-- Numeric value of a digit character. -/
def dval (c : Char) : Nat := c.toNat - 48

/-- A parsed `datetime.datetime` value. -/
structure DateTime where
  year : Nat
  month : Nat
  day : Nat
  hour : Nat
  minute : Nat
  second : Nat
deriving DecidableEq, Repr

/-- Gregorian leap-year rule used by `datetime`. -/
def isLeapYear (y : Nat) : Bool := y % 4 == 0 && (y % 100 != 0 || y % 400 == 0)

/-- Length of a month in the proleptic Gregorian calendar. -/
def daysInMonth (y m : Nat) : Nat :=
  match m with
  | 1 => 31
  | 2 => if isLeapYear y then 29 else 28
  | 3 => 31
  | 4 => 30
  | 5 => 31
  | 6 => 30
  | 7 => 31
  | 8 => 31
  | 9 => 30
  | 10 => 31
  | 11 => 30
  | 12 => 31
  | _ => 0

/-- Validation performed by the `datetime` constructor
(`MINYEAR = 1`, `MAXYEAR = 9999`, day bounded by the month length). -/
def validDT (y m d hh mm ss : Nat) : Bool :=
  decide (1 ≤ y ∧ y ≤ 9999 ∧ 1 ≤ m ∧ m ≤ 12 ∧ 1 ≤ d ∧ d ≤ daysInMonth y m ∧
    hh ≤ 23 ∧ mm ≤ 59 ∧ ss ≤ 59)

/-- Days strictly before January 1 of year `y` (proleptic Gregorian,
`date(1,1,1).toordinal() = 1`). -/
def daysBeforeYear (y : Nat) : Nat :=
  365 * (y - 1) + (y - 1) / 4 - (y - 1) / 100 + (y - 1) / 400

/-- Days strictly before the first of month `m` inside year `y`. -/
def daysBeforeMonth (y m : Nat) : Nat :=
  (match m with
   | 1 => 0
   | 2 => 31
   | 3 => 59
   | 4 => 90
   | 5 => 120
   | 6 => 151
   | 7 => 181
   | 8 => 212
   | 9 => 243
   | 10 => 273
   | 11 => 304
   | _ => 334) +
  (if 3 ≤ m then (if isLeapYear y then 1 else 0) else 0)

/-- `datetime.toordinal`, the proleptic Gregorian day number. -/
def toOrdinal (dt : DateTime) : Nat :=
  daysBeforeYear dt.year + daysBeforeMonth dt.year dt.month + dt.day

/-- The datetime as a second count; Python compares and subtracts
`datetime` values exactly by this quantity. -/
def tsOf (dt : DateTime) : Nat :=
  toOrdinal dt * 86400 + dt.hour * 3600 + dt.minute * 60 + dt.second

/-- `(e - today).days` for two datetimes: `timedelta` normalises with
`0 <= seconds < 86400`, so `.days` is the floor of the difference. -/
def deltaDays (today e : DateTime) : Int :=
  ((tsOf e : Int) - (tsOf today : Int)).fdiv 86400

/-! ## The `strptime` embedding

CPython's `_strptime` compiles the format to one regex and anchors it at
the start of the input; after a match it requires the whole input to be
consumed.  Each numeric directive is an alternation trying the two-digit
forms before the one-digit form, e.g. `%d` is `3[01]|[12]\d|0[1-9]|[1-9]`,
and every alternation for our directives is: any two-digit value inside
the directive's range first, then any one-digit value inside the range.
The interpreter below mirrors that candidate order, including regex
backtracking into the shorter candidate when the rest of the format
fails to match.  The regex is compiled with `IGNORECASE`, so the letter
literal `T` of the ISO date-time format also matches `t`; this is
modelled by ASCII-case-insensitive literal matching.  The `\d`
positions of the regexes are modelled as the ASCII digits: CPython's
`\d` additionally accepts non-ASCII Unicode decimal digits in the
`\d` (not the explicit-range) positions, an artifact that cannot occur
in the registrar's XML and is left outside the model. -/

/-- ASCII lower-casing, the effect of `IGNORECASE` on our literals. -/
def lowerAscii (c : Char) : Char :=
  if 65 ≤ c.toNat ∧ c.toNat ≤ 90 then Char.ofNat (c.toNat + 32) else c

/-- Case-insensitive literal match of an input character against a
format literal. -/
def litMatch (x c : Char) : Bool := lowerAscii x == lowerAscii c

/-- Which `datetime` component a directive fills (`yr2` is `%y`, which
maps `0..68` to `2000..2068` and `69..99` to `1969..1999`). -/
inductive Slot
  | yr
  | yr2
  | mon
  | day
  | hr
  | mi
  | sc
deriving DecidableEq, Repr

/-- Shape of a numeric directive: `n21 lo hi` is the two-or-one-digit
alternation with value range `lo..hi` (one-digit form capped at 9), `e4`
is exactly four digits (`%Y`), `e2` exactly two (`%y`). -/
inductive NumSpec
  | n21 (lo hi : Nat)
  | e4
  | e2
deriving DecidableEq, Repr

/-- A compiled format token: a literal character or a numeric directive. -/
inductive FTok
  | lit (c : Char)
  | num (spec : NumSpec) (slot : Slot)
deriving DecidableEq, Repr

/-- The fields collected while matching, all initially absent. -/
structure PVals where
  y : Option Nat := none
  m : Option Nat := none
  d : Option Nat := none
  hh : Option Nat := none
  mm : Option Nat := none
  ss : Option Nat := none
deriving DecidableEq, Repr

/-- `%y` pivot mapping of CPython's `_strptime`. -/
def pyY2 (v : Nat) : Nat := if v ≤ 68 then 2000 + v else 1900 + v

/-- Store a matched directive value. -/
def setSlot (acc : PVals) (slot : Slot) (v : Nat) : PVals :=
  match slot with
  | .yr => { acc with y := some v }
  | .yr2 => { acc with y := some (pyY2 v) }
  | .mon => { acc with m := some v }
  | .day => { acc with d := some v }
  | .hr => { acc with hh := some v }
  | .mi => { acc with mm := some v }
  | .sc => { acc with ss := some v }

/-- Two-digit candidate of a `n21 lo hi` directive. -/
def cand2of (lo hi : Nat) (cs : List Char) : Option (Nat × List Char) :=
  match cs with
  | c1 :: c2 :: rest =>
    if isDig c1 ∧ isDig c2 ∧ lo ≤ dval c1 * 10 + dval c2 ∧ dval c1 * 10 + dval c2 ≤ hi
    then some (dval c1 * 10 + dval c2, rest) else none
  | _ => none

/-- One-digit candidate of a `n21 lo _` directive (regex `[lo-9]`). -/
def cand1of (lo : Nat) (cs : List Char) : Option (Nat × List Char) :=
  match cs with
  | c1 :: rest => if isDig c1 ∧ lo ≤ dval c1 then some (dval c1, rest) else none
  | _ => none

/-- The single candidate of `%Y`: exactly four digits. -/
def cand4 (cs : List Char) : Option (Nat × List Char) :=
  match cs with
  | a :: b :: c :: d :: rest =>
    if isDig a ∧ isDig b ∧ isDig c ∧ isDig d
    then some (((dval a * 10 + dval b) * 10 + dval c) * 10 + dval d, rest) else none
  | _ => none

/-- The single candidate of `%y`: exactly two digits (raw value). -/
def cand2e (cs : List Char) : Option (Nat × List Char) :=
  match cs with
  | a :: b :: rest =>
    if isDig a ∧ isDig b then some (dval a * 10 + dval b, rest) else none
  | _ => none

/-- Candidates of a directive, in regex preference order. -/
def candConsume (spec : NumSpec) (cs : List Char) :
    Option (Nat × List Char) × Option (Nat × List Char) :=
  match spec with
  | .n21 lo hi => (cand2of lo hi cs, cand1of lo cs)
  | .e4 => (cand4 cs, none)
  | .e2 => (cand2e cs, none)

/-- Match a compiled format against the input with regex backtracking:
a directive first tries its long candidate and falls back to the short
one if the rest of the format fails; the whole input must be consumed. -/
def runToks : List FTok → List Char → PVals → Option PVals
  | [], cs, acc => if cs.isEmpty then some acc else none
  | .lit c :: ts, cs, acc =>
    match cs with
    | [] => none
    | x :: xs => if litMatch x c then runToks ts xs acc else none
  | .num spec slot :: ts, cs, acc =>
    match candConsume spec cs with
    | (o1, o2) =>
      match o1 with
      | some (v, rest) =>
        match runToks ts rest (setSlot acc slot v) with
        | some r => some r
        | none =>
          match o2 with
          | some (w, rest2) => runToks ts rest2 (setSlot acc slot w)
          | none => none
      | none =>
        match o2 with
        | some (w, rest2) => runToks ts rest2 (setSlot acc slot w)
        | none => none

/-- Token of a format directive used by the program. -/
def dirOf (c : Char) : Option FTok :=
  if c = 'm' then some (.num (.n21 1 12) .mon)
  else if c = 'd' then some (.num (.n21 1 31) .day)
  else if c = 'Y' then some (.num .e4 .yr)
  else if c = 'y' then some (.num .e2 .yr2)
  else if c = 'H' then some (.num (.n21 0 23) .hr)
  else if c = 'M' then some (.num (.n21 0 59) .mi)
  else if c = 'S' then some (.num (.n21 0 59) .sc)
  else none

/-- Compile a format string to tokens. -/
def compileFmt : List Char → Option (List FTok)
  | [] => some []
  | ['%'] => none
  | '%' :: c :: rest =>
    match dirOf c, compileFmt rest with
    | some t, some ts => some (t :: ts)
    | _, _ => none
  | c :: rest =>
    match compileFmt rest with
    | some ts => some (.lit c :: ts)
    | none => none

/-- Build the `datetime` from the collected fields with `strptime`'s
defaults (year 1900, month 1, day 1, midnight) and the constructor's
validation. -/
def buildDT (acc : PVals) : Option DateTime :=
  let y := acc.y.getD 1900
  let m := acc.m.getD 1
  let d := acc.d.getD 1
  let hh := acc.hh.getD 0
  let mm := acc.mm.getD 0
  let ss := acc.ss.getD 0
  if validDT y m d hh mm ss then some ⟨y, m, d, hh, mm, ss⟩ else none

/-- `datetime.strptime(s, fmt)`, with failure (`ValueError`) as `none`. -/
def strptimeEmb (fmt s : String) : Option DateTime :=
  match compileFmt fmt.data with
  | none => none
  | some toks =>
    match runToks toks s.data {} with
    | some acc => buildDT acc
    | none => none

/-- The fixed format list of `parse_date` (source lines 113). -/
def fmtStrs : List String := ["%m/%d/%Y", "%m/%d/%y", "%Y-%m-%dT%H:%M:%S", "%Y-%m-%d"]

/-- First defined value of a list of options. -/
def firstSome : List (Option α) → Option α
  | [] => none
  | some x :: _ => some x
  | none :: rest => firstSome rest

/-- `parse_date` (source lines 105-124): `None` or the empty string is
falsy and returns `None`; otherwise the four formats are tried in order
and the first success wins; if none matches the result is `None`
(a warning is printed, no exception escapes). -/
def parse_date (date_str : Option String) : Option DateTime :=
  match date_str with
  | none => none
  | some s =>
    if s.isEmpty then none
    else firstSome (fmtStrs.map (fun f => strptimeEmb f s))

/-! ## Spec-side description of the four accepted patterns

The specification describes the accepted date strings pattern by
pattern: month/day/4-digit-year, month/day/2-digit-year, ISO date-time,
ISO date, where month, day, hour, minute and second are one- or
two-digit numbers in range, and the result is the date denoted by the
literal digits.  The functions below follow those words: split at the
separators, read each field, and build the denoted date. -/

/-- Split at the first character matching `sep` (case-insensitively,
as the `IGNORECASE` regex does), if any. -/
def splitFirst (sep : Char) : List Char → Option (List Char × List Char)
  | [] => none
  | c :: cs =>
    if litMatch c sep then some ([], cs)
    else
      match splitFirst sep cs with
      | some (a, b) => some (c :: a, b)
      | none => none

/-- Read a one- or two-digit numeric field with value in `lo..hi`. -/
def readN2 (lo hi : Nat) : List Char → Option Nat
  | [c] => if isDig c ∧ lo ≤ dval c ∧ dval c ≤ hi then some (dval c) else none
  | [c1, c2] =>
    if isDig c1 ∧ isDig c2 ∧ lo ≤ dval c1 * 10 + dval c2 ∧ dval c1 * 10 + dval c2 ≤ hi
    then some (dval c1 * 10 + dval c2) else none
  | _ => none

/-- Read an exactly-four-digit year field. -/
def read4 : List Char → Option Nat
  | [a, b, c, d] =>
    if isDig a ∧ isDig b ∧ isDig c ∧ isDig d
    then some (((dval a * 10 + dval b) * 10 + dval c) * 10 + dval d) else none
  | _ => none

/-- Read an exactly-two-digit year field (raw value, before the pivot). -/
def read2 : List Char → Option Nat
  | [a, b] => if isDig a ∧ isDig b then some (dval a * 10 + dval b) else none
  | _ => none

/-- The month/day/4-digit-year pattern: the string is
`month "/" day "/" year` with a 1-2 digit month in `1..12`, a 1-2 digit
day in `1..31`, a 4-digit year, denoting that calendar date at
midnight; the denoted date must exist in the calendar. -/
def specMDY4 (s : String) : Option DateTime :=
  match splitFirst '/' s.data with
  | none => none
  | some (f1, r1) =>
    match readN2 1 12 f1 with
    | none => none
    | some m =>
      match splitFirst '/' r1 with
      | none => none
      | some (f2, f3) =>
        match readN2 1 31 f2 with
        | none => none
        | some d =>
          match read4 f3 with
          | none => none
          | some y => if validDT y m d 0 0 0 then some ⟨y, m, d, 0, 0, 0⟩ else none

/-- The month/day/2-digit-year pattern: as `specMDY4` but the year is
exactly two digits, mapped through the century pivot (`00..68` to
`2000..2068`, `69..99` to `1969..1999`). -/
def specMDY2 (s : String) : Option DateTime :=
  match splitFirst '/' s.data with
  | none => none
  | some (f1, r1) =>
    match readN2 1 12 f1 with
    | none => none
    | some m =>
      match splitFirst '/' r1 with
      | none => none
      | some (f2, f3) =>
        match readN2 1 31 f2 with
        | none => none
        | some d =>
          match read2 f3 with
          | none => none
          | some v =>
            if validDT (pyY2 v) m d 0 0 0 then some ⟨pyY2 v, m, d, 0, 0, 0⟩ else none

/-- The ISO date-time pattern
`year "-" month "-" day "T" hour ":" minute ":" second` with a 4-digit
year, 1-2 digit month, day, hour (`0..23`), minute and second
(`0..59`), denoting that calendar date and time of day. -/
def specISOdt (s : String) : Option DateTime :=
  match splitFirst '-' s.data with
  | none => none
  | some (f1, r1) =>
    match read4 f1 with
    | none => none
    | some y =>
      match splitFirst '-' r1 with
      | none => none
      | some (f2, r2) =>
        match readN2 1 12 f2 with
        | none => none
        | some m =>
          match splitFirst 'T' r2 with
          | none => none
          | some (f3, r3) =>
            match readN2 1 31 f3 with
            | none => none
            | some d =>
              match splitFirst ':' r3 with
              | none => none
              | some (f4, r4) =>
                match readN2 0 23 f4 with
                | none => none
                | some hh =>
                  match splitFirst ':' r4 with
                  | none => none
                  | some (f5, f6) =>
                    match readN2 0 59 f5 with
                    | none => none
                    | some mm =>
                      match readN2 0 59 f6 with
                      | none => none
                      | some ss =>
                        if validDT y m d hh mm ss then some ⟨y, m, d, hh, mm, ss⟩
                        else none

/-- The ISO date pattern `year "-" month "-" day` with a 4-digit year,
1-2 digit month and day, denoting that calendar date at midnight. -/
def specISOd (s : String) : Option DateTime :=
  match splitFirst '-' s.data with
  | none => none
  | some (f1, r1) =>
    match read4 f1 with
    | none => none
    | some y =>
      match splitFirst '-' r1 with
      | none => none
      | some (f2, f3) =>
        match readN2 1 12 f2 with
        | none => none
        | some m =>
          match readN2 1 31 f3 with
          | none => none
          | some d => if validDT y m d 0 0 0 then some ⟨y, m, d, 0, 0, 0⟩ else none

/-- The four accepted patterns in the fixed order of the source, first
successful match winning; any other string denotes nothing. -/
def specParse (s : String) : Option DateTime :=
  match specMDY4 s with
  | some dt => some dt
  | none =>
    match specMDY2 s with
    | some dt => some dt
    | none =>
      match specISOdt s with
      | some dt => some dt
      | none => specISOd s

/-! ## The fetcher (`get_domains`, source lines 17-103)

The HTTP response and the result of `ET.fromstring` are inputs of the
model: `parsed = none` stands for ill-formed XML (the parser raises).
Console output relevant to the claims and the diagnostic file write are
recorded as explicit effects. -/

/-- Python runtime errors the program can raise. -/
inductive PyErr
  | zeroDivisionError
  | typeError
  | xmlSyntaxError
deriving DecidableEq, Repr

/-- One domain record as built by `get_domains` (source lines 80-92);
`expiry_date_obj` is attached later by `display_domains`. -/
structure DomainRec where
  id : Option String
  name : Option String
  user : Option String
  created : Option String
  expires : Option String
  is_expired : Bool
  is_locked : Bool
  auto_renew : Bool
  whois_guard : Option String
  is_premium : Bool
  is_our_dns : Bool
  expiry_date_obj : Option DateTime := none
deriving DecidableEq, Repr

/-- `element.attrib.get(k)`: attribute lookup, `None` when absent. -/
def attrGet (attrs : List (String × String)) (k : String) : Option String :=
  match attrs.find? (fun p => p.1 == k) with
  | some p => some p.2
  | none => none

/-- Extraction of one `<Domain>` element (source lines 80-92): string
attributes are taken as-is (absent attributes become `None`), boolean
fields compare the attribute against the literal string `"true"`. -/
def extractDomain (attrs : List (String × String)) : DomainRec :=
  { id := attrGet attrs "ID"
    name := attrGet attrs "Name"
    user := attrGet attrs "User"
    created := attrGet attrs "Created"
    expires := attrGet attrs "Expires"
    is_expired := attrGet attrs "IsExpired" == some "true"
    is_locked := attrGet attrs "IsLocked" == some "true"
    auto_renew := attrGet attrs "AutoRenew" == some "true"
    whois_guard := attrGet attrs "WhoisGuard"
    is_premium := attrGet attrs "IsPremium" == some "true"
    is_our_dns := attrGet attrs "IsOurDNS" == some "true" }

/-- An `<Error>` element: `Number` attribute and text content. -/
structure XmlError where
  number : Option String
  text : Option String
deriving DecidableEq, Repr

/-- The parsed XML root: its `Status` attribute, the `<Error>` elements
and the `<Domain>` elements (as attribute lists). -/
structure XmlRoot where
  status : Option String
  errors : List XmlError
  domainElems : List (List (String × String))
deriving DecidableEq, Repr

/-- An HTTP response: transport status code, raw body, and the result
of parsing the body as XML (`none` when the body is ill-formed). -/
structure HttpResp where
  status_code : Nat
  body : String
  parsed : Option XmlRoot
deriving DecidableEq, Repr

/-- The error line printed for one `<Error>` element (source line 70);
a missing number prints as `Unknown`, missing text as `None`. -/
def errLine (e : XmlError) : String :=
  "API Error " ++ e.number.getD "Unknown" ++ ": " ++ e.text.getD "None"

/-- Observable outcome of `get_domains`: returned value (or propagated
exception), content written to `api_response.xml` (if any), and the
diagnostic lines printed for claim-relevant branches. -/
structure FetchOut where
  result : Except PyErr (List DomainRec)
  fileWrite : Option String
  printed : List String
deriving Repr

/-- `get_domains` (source lines 17-103): a non-200 status returns `[]`
before the file write; on a 200 status the raw body is written to
`api_response.xml`, then the XML is parsed (ill-formed XML propagates
the parser's exception), then a root `Status` other than `"OK"` prints
every embedded error and returns `[]`; otherwise each `<Domain>`
element is extracted in order. -/
def get_domains (resp : HttpResp) : FetchOut :=
  if resp.status_code ≠ 200 then
    { result := .ok []
      fileWrite := none
      printed := ["Error: " ++ toString resp.status_code, resp.body] }
  else
    match resp.parsed with
    | none =>
      { result := .error .xmlSyntaxError
        fileWrite := some resp.body
        printed := [] }
    | some root =>
      if root.status ≠ some "OK" then
        { result := .ok []
          fileWrite := some resp.body
          printed := root.errors.map errLine }
      else
        { result := .ok (root.domainElems.map extractDomain)
          fileWrite := some resp.body
          printed := [] }

/-! ## The reporter (`display_domains`, source lines 126-248) -/

/-- `x if x else dflt` for an optional string (Python truthiness:
`None` and the empty string are falsy). -/
def pyTruthyOr (o : Option String) (dflt : String) : String :=
  match o with
  | some s => if s.isEmpty then dflt else s
  | none => dflt

/-- Left-aligned width padding, Python's format spec `<w`. -/
def padR (s : String) (w : Nat) : String :=
  s ++ String.mk (List.replicate (w - s.length) ' ')

/-- Applying the format spec `<w` to an optional string: formatting
`None` with a width raises `TypeError`. -/
def pyFmtOpt (o : Option String) (w : Nat) : Except PyErr String :=
  match o with
  | none => .error .typeError
  | some s => .ok (padR s w)

/-- `'Yes' if b else 'No'`. -/
def ynStr (b : Bool) : String := if b then "Yes" else "No"

/-- Expiry-column annotation (source lines 161-173), applied to the
displayed expiry text when the parsed date exists, with `d` the
computed days until expiry. -/
def annotate (base : String) (d : Int) : String :=
  if 0 < d ∧ d ≤ 30 then
    base ++ " (" ++ toString d ++ " days left) - RENEW SOON!"
  else if d ≤ 0 then base ++ " - EXPIRED!"
  else base ++ " (" ++ toString d ++ " days left)"

/-- One row of the sorted listing (source lines 157-178): the f-string
formats the name and the WHOIS-guard value with a width spec, so either
being `None` raises `TypeError` (name first, in evaluation order). -/
def renderRow (today : DateTime) (r : DomainRec) : Except PyErr String :=
  match pyFmtOpt r.name 30 with
  | .error e => .error e
  | .ok nameF =>
    let expiry0 := pyTruthyOr r.expires "N/A"
    let created0 := pyTruthyOr r.created "N/A"
    let expiryA :=
      match r.expiry_date_obj with
      | some e => annotate expiry0 (deltaDays today e)
      | none => expiry0
    match pyFmtOpt r.whois_guard 15 with
    | .error e => .error e
    | .ok whoisF =>
      .ok (nameF ++ " " ++ padR expiryA 20 ++ " " ++ padR created0 20 ++ " " ++
        padR (ynStr r.auto_renew) 12 ++ " " ++ padR (ynStr r.is_locked) 10 ++ " " ++
        whoisF)

/-- The row loop of the sorted listing; the first raised error stops
the run. -/
def renderRows (today : DateTime) : List DomainRec → Except PyErr (List String)
  | [] => .ok []
  | r :: rs =>
    match renderRow today r with
    | .error e => .error e
    | .ok s =>
      match renderRows today rs with
      | .error e => .error e
      | .ok ss => .ok (s :: ss)

/-- Attach the parsed expiry date to every record (source lines
139-147; both branches of the loop append, so the order is kept). -/
def withDates (domains : List DomainRec) : List DomainRec :=
  domains.map (fun r => { r with expiry_date_obj := parse_date r.expires })

/-- Sort key of a record: Python compares the `datetime` objects, which
for calendar-valid dates is exactly comparison of `tsOf`. -/
def recTs (r : DomainRec) : Int :=
  match r.expiry_date_obj with
  | some e => (tsOf e : Int)
  | none => 0

/-- Stable insertion into a key-sorted list: the inserted element goes
before the first strictly-greater-or-equal key, so a run of equal keys
keeps insertion order when building from the right. -/
def sInsK {α : Type} (key : α → Int) (x : α) : List α → List α
  | [] => [x]
  | y :: ys => if key x ≤ key y then x :: y :: ys else y :: sInsK key x ys

/-- Stable sort by an integer key; `sorted(..., key=...)` in Python is
stable, and a stable sort's output is uniquely determined, so this
insertion sort is an exact model. -/
def sSortK {α : Type} (key : α → Int) : List α → List α
  | [] => []
  | x :: xs => sInsK key x (sSortK key xs)

/-- The sorted listing order (source lines 139-153): records with a
parsed date, sorted stably and ascending by that date, followed by the
records whose date failed to parse, in their original order. -/
def sortedView (domains : List DomainRec) : List DomainRec :=
  sSortK recTs ((withDates domains).filter (fun r => r.expiry_date_obj.isSome)) ++
    (withDates domains).filter (fun r => !r.expiry_date_obj.isSome)

/-- The upcoming-renewals selection (source lines 181-184). -/
def upcomingView (today : DateTime) (domains : List DomainRec) : List DomainRec :=
  (sortedView domains).filter (fun r =>
    match r.expiry_date_obj with
    | some e => decide (0 < deltaDays today e ∧ deltaDays today e ≤ 90)
    | none => false)

/-- The statistics block (source lines 196-206); percentages are exact
rationals here (floating-point rounding is presentation only). -/
structure Stats where
  total : Nat
  autoRenewCount : Nat
  lockedCount : Nat
  whoisGuardCount : Nat
  autoRenewPct : ℚ
  lockedPct : ℚ
  whoisGuardPct : ℚ
deriving DecidableEq, Repr

/-- Python division, raising `ZeroDivisionError` on a zero divisor. -/
def pyDiv (a b : ℚ) : Except PyErr ℚ :=
  if b = 0 then .error .zeroDivisionError else .ok (a / b)

/-- The statistics view (source lines 198-206), computed over the full
unsorted list with the three `count / total * 100` divisions. -/
def statsView (domains : List DomainRec) : Except PyErr Stats :=
  let total := domains.length
  let ar := domains.countP (fun d => d.auto_renew)
  let lk := domains.countP (fun d => d.is_locked)
  let wg := domains.countP (fun d => d.whois_guard == some "ENABLED")
  match pyDiv (ar : ℚ) (total : ℚ) with
  | .error e => .error e
  | .ok p1 =>
    match pyDiv (lk : ℚ) (total : ℚ) with
    | .error e => .error e
    | .ok p2 =>
      match pyDiv (wg : ℚ) (total : ℚ) with
      | .error e => .error e
      | .ok p3 =>
        .ok { total := total, autoRenewCount := ar, lockedCount := lk,
              whoisGuardCount := wg, autoRenewPct := p1 * 100,
              lockedPct := p2 * 100, whoisGuardPct := p3 * 100 }

/-- `strftime("%B")`: the full month name. -/
def monthName (m : Nat) : String :=
  match m with
  | 1 => "January"
  | 2 => "February"
  | 3 => "March"
  | 4 => "April"
  | 5 => "May"
  | 6 => "June"
  | 7 => "July"
  | 8 => "August"
  | 9 => "September"
  | 10 => "October"
  | 11 => "November"
  | 12 => "December"
  | _ => ""

/-- `strftime("%B %Y")`, the calendar group label. -/
def labelOf (e : DateTime) : String := monthName e.month ++ " " ++ toString e.year

/-- The fixed month-name-to-number map (source lines 215-219), with the
source's default 13 for an unknown name. -/
def monthNum (s : String) : Nat :=
  if s = "January" then 1
  else if s = "February" then 2
  else if s = "March" then 3
  else if s = "April" then 4
  else if s = "May" then 5
  else if s = "June" then 6
  else if s = "July" then 7
  else if s = "August" then 8
  else if s = "September" then 9
  else if s = "October" then 10
  else if s = "November" then 11
  else if s = "December" then 12
  else 13

/-- Digits-only reading of a natural number. -/
def natOfDigits (cs : List Char) : Option Nat :=
  match cs with
  | [] => none
  | _ =>
    if cs.all (fun c => isDig c) then
      some (cs.foldl (fun acc c => acc * 10 + dval c) 0)
    else none

/-- `int(s)` for a plain (optionally negated) decimal string; any other
content raises `ValueError`, which the key function catches. -/
def pyInt (s : String) : Option Int :=
  match s.data with
  | '-' :: rest => (natOfDigits rest).map (fun n => -(n : Int))
  | cs => (natOfDigits cs).map (fun n => (n : Int))

/-- Split at every occurrence of `sep` (the label split on the space). -/
def splitAll (sep : Char) : List Char → List (List Char)
  | [] => [[]]
  | c :: cs =>
    if c = sep then [] :: splitAll sep cs
    else
      match splitAll sep cs with
      | [] => [[c]]
      | p :: ps => (c :: p) :: ps

/-- The chronological key of a group label (source lines 227-242):
parse back `"<month name> <year>"` into the pair (year, month number)
and flatten it lexicographically; a label that does not split into two
parts, a year that is not an integer, or an unknown month name maps to
the sentinel pair (9999, 13), sorted after every real (year, month). -/
def month_year_key (lab : String) : Int :=
  match splitAll ' ' lab.data with
  | [mn, ys] =>
    match pyInt (String.mk ys) with
    | some y => y * 14 + (monthNum (String.mk mn) : Int)
    | none => 9999 * 14 + 13
  | _ => 9999 * 14 + 13

/-- First-occurrence deduplication (Python dict keys are unique and
keep insertion order). -/
def dedupAux (seen : List String) : List String → List String
  | [] => []
  | x :: xs => if x ∈ seen then dedupAux seen xs else x :: dedupAux (x :: seen) xs

/-- First-occurrence list of distinct labels. -/
def dedupFO (l : List String) : List String := dedupAux [] l

/-- The calendar group label of a record, `none` when the date failed
to parse (such records are grouped nowhere, source lines 221-224). -/
def rowLabel (r : DomainRec) : Option String := r.expiry_date_obj.map labelOf

/-- The calendar view (source lines 211-248): group the sorted listing
by label, then print the groups in `month_year_key` order; within a
group the records keep the sorted-listing order. -/
def calendarView (domains : List DomainRec) : List (String × List DomainRec) :=
  (sSortK month_year_key (dedupFO ((sortedView domains).filterMap rowLabel))).map
    (fun lab => (lab, (sortedView domains).filter (fun r => rowLabel r == some lab)))

/-- Everything `display_domains` shows, with the empty-input early
return recorded in `noDomains`. -/
structure DisplayOut where
  noDomains : Bool
  rows : List String
  upcoming : List DomainRec
  stats : Option Stats
  calendar : List (String × List DomainRec)
deriving DecidableEq, Repr

/-- `display_domains` (source lines 126-248): an empty list returns
early with only the "No domains found" message; otherwise the sorted
listing rows are printed (each row can raise `TypeError`), then the
upcoming view, then the statistics (whose divisions can raise
`ZeroDivisionError`), then the calendar view.  The upcoming and
calendar print loops cannot raise: every record they touch was already
formatted in the sorted listing, and their remaining interpolations
have no width spec. -/
def display_domains (today : DateTime) (domains : List DomainRec) :
    Except PyErr DisplayOut :=
  if domains.isEmpty then
    .ok { noDomains := true, rows := [], upcoming := [], stats := none, calendar := [] }
  else
    match renderRows today (sortedView domains) with
    | .error e => .error e
    | .ok rows =>
      match statsView domains with
      | .error e => .error e
      | .ok st =>
        .ok { noDomains := false, rows := rows,
              upcoming := upcomingView today domains, stats := some st,
              calendar := calendarView domains }

/-- The sorted-listing order relation of claim C4: a record with a
parsed date precedes one without, and parsed dates are compared
chronologically. -/
def dispLe (a b : DomainRec) : Prop :=
  match a.expiry_date_obj, b.expiry_date_obj with
  | some x, some y => tsOf x ≤ tsOf y
  | _, none => True
  | none, some _ => False

/-! ## Concrete values used by witnesses and counterexamples -/

/-- A report-generation timestamp used in concrete instances. -/
def todayT : DateTime := ⟨2026, 1, 1, 0, 0, 0⟩

/-- A transport-level failure response (status 500, nothing parsed). -/
def resp500 : HttpResp := { status_code := 500, body := "oops", parsed := none }

/-- A successful response carrying one domain element. -/
def respOkC2 : HttpResp :=
  { status_code := 200, body := "xmlbody"
    parsed := some { status := some "OK", errors := [], domainElems := [] } }

/-- A 500 response for the C8 witness. -/
def c8resp500 : HttpResp := { status_code := 500, body := "down", parsed := none }

/-- The error element of the C8 witness response. -/
def c8err : XmlError := { number := some "1011102", text := some "API Key is invalid" }

/-- The API-level-failure root of the C8 witness response. -/
def c8root : XmlRoot := { status := some "ERROR", errors := [c8err], domainElems := [] }

/-- A 200 response whose API-level status is not OK. -/
def c8respErr : HttpResp := { status_code := 200, body := "errbody", parsed := some c8root }

/-- A record whose expiry equals the report date (0 days left). -/
def c5rec0 : DomainRec :=
  { id := none, name := some "a.com", user := none, created := none
    expires := some "01/01/2026", is_expired := false, is_locked := false
    auto_renew := false, whois_guard := some "ENABLED", is_premium := false
    is_our_dns := false }

/-- A record expiring exactly 90 days after the report date. -/
def c5rec90 : DomainRec :=
  { id := none, name := some "b.com", user := none, created := none
    expires := some "04/01/2026", is_expired := false, is_locked := false
    auto_renew := true, whois_guard := some "ENABLED", is_premium := false
    is_our_dns := false }

/-- A well-formed record for the C1 witness. -/
def c1rec : DomainRec :=
  { id := none, name := some "c.com", user := none, created := none
    expires := some "06/15/2026", is_expired := false, is_locked := true
    auto_renew := true, whois_guard := some "ENABLED", is_premium := false
    is_our_dns := false }

/-- A record whose `WhoisGuard` attribute was absent. -/
def c9rec : DomainRec :=
  { id := none, name := some "d.com", user := none, created := none
    expires := some "06/15/2026", is_expired := false, is_locked := false
    auto_renew := false, whois_guard := none, is_premium := false
    is_our_dns := false }

/-- Expiry date used in the C6 witness (15 days after `todayT`). -/
def c6soon : DateTime := ⟨2026, 1, 16, 0, 0, 0⟩

/-- Expiry date used in the C6 witness (400 days before `todayT`). -/
def c6past : DateTime := ⟨2024, 11, 27, 0, 0, 0⟩

/-- A record expiring in December 2025, for the C7 witness. -/
def c7rec : DomainRec :=
  { id := none, name := some "e.com", user := none, created := none
    expires := some "12/15/2025", is_expired := false, is_locked := false
    auto_renew := false, whois_guard := some "ENABLED", is_premium := false
    is_our_dns := false }

/-! ## Interpreter-versus-spec bridging lemmas -/

theorem dval_le_9 {c : Char} (h : isDig c = true) : dval c ≤ 9 := by
  simp only [isDig, Bool.and_eq_true, decide_eq_true_eq] at h
  simp only [dval]
  omega

theorem splitFirst_eq_none {sep : Char} :
    ∀ {cs : List Char}, splitFirst sep cs = none →
      ∀ x ∈ cs, litMatch x sep = false := by
  intro cs
  induction cs with
  | nil => intro _ x hx; cases hx
  | cons c cs ih =>
    intro h x hx
    by_cases hc : litMatch c sep = true
    · simp [splitFirst, hc] at h
    · simp only [splitFirst, if_neg hc] at h
      rcases hsp : splitFirst sep cs with _ | ⟨a, b⟩
      · rcases List.mem_cons.mp hx with rfl | h2
        · exact Bool.eq_false_iff.mpr hc
        · exact ih hsp x h2
      · rw [hsp] at h; cases h

theorem splitFirst_eq_some {sep : Char} :
    ∀ {cs field rest : List Char}, splitFirst sep cs = some (field, rest) →
      ∃ w, cs = field ++ w :: rest ∧ litMatch w sep = true ∧
        ∀ x ∈ field, litMatch x sep = false := by
  intro cs
  induction cs with
  | nil => intro field rest h; cases h
  | cons c cs ih =>
    intro field rest h
    by_cases hc : litMatch c sep = true
    · simp only [splitFirst, if_pos hc] at h
      cases h
      exact ⟨c, by simp, hc, by simp⟩
    · simp only [splitFirst, if_neg hc] at h
      rcases hsp : splitFirst sep cs with _ | ⟨a, b⟩
      · rw [hsp] at h; cases h
      · rw [hsp] at h
        cases h
        obtain ⟨w, h1, h2, h3⟩ := ih hsp
        refine ⟨w, by simp [h1], h2, ?_⟩
        intro x hx
        rcases List.mem_cons.mp hx with rfl | hx'
        · exact Bool.eq_false_iff.mpr hc
        · exact h3 x hx'

theorem runToks_lit_of_notin {sep : Char} {cs : List Char} (ts : List FTok) (acc : PVals)
    (h : ∀ x ∈ cs, litMatch x sep = false) :
    runToks (.lit sep :: ts) cs acc = none := by
  cases cs with
  | nil => rfl
  | cons x xs =>
    have hx := h x (by simp)
    simp [runToks, hx]

theorem runToks_lit_head_ne {sep x : Char} (h : litMatch x sep = false) (ts : List FTok)
    (xs : List Char) (acc : PVals) : runToks (.lit sep :: ts) (x :: xs) acc = none := by
  simp [runToks, h]

theorem runToks_lit_head_match {sep x : Char} (h : litMatch x sep = true)
    (ts : List FTok) (xs : List Char) (acc : PVals) :
    runToks (.lit sep :: ts) (x :: xs) acc = runToks ts xs acc := by
  simp [runToks, h]

theorem isDig_false_of_litMatch {sep x : Char} (hs : isDig (lowerAscii sep) = false)
    (hm : litMatch x sep = true) : isDig x = false := by
  cases hd : isDig x
  · rfl
  · exfalso
    have hx : lowerAscii x = x := by
      simp only [isDig, Bool.and_eq_true, decide_eq_true_eq] at hd
      rw [lowerAscii, if_neg (by omega)]
    rw [litMatch, hx, beq_iff_eq] at hm
    rw [hm] at hd
    rw [hd] at hs
    cases hs

theorem runToks_lit_nil (sep : Char) (ts : List FTok) (acc : PVals) :
    runToks (.lit sep :: ts) [] acc = none := rfl

/-- One unfolding step of a numeric directive, with the continuations
kept as `runToks` applications. -/
theorem runToks_num_step (spec : NumSpec) (slot : Slot) (ts : List FTok)
    (cs : List Char) (acc : PVals) :
    runToks (.num spec slot :: ts) cs acc =
      match candConsume spec cs with
      | (some (v, rest), o2) =>
        match runToks ts rest (setSlot acc slot v) with
        | some r => some r
        | none =>
          match o2 with
          | some (w, rest2) => runToks ts rest2 (setSlot acc slot w)
          | none => none
      | (none, some (w, rest2)) => runToks ts rest2 (setSlot acc slot w)
      | (none, none) => none := by
  rcases h : candConsume spec cs with ⟨o1, o2⟩
  rcases o1 with _ | ⟨v, rest⟩
  · rcases o2 with _ | ⟨w, rest2⟩ <;> simp [runToks, h]
  · simp [runToks, h]

theorem runToks_n21_sep (lo hi : Nat) (h9 : 9 ≤ hi) (slot : Slot) (sep : Char)
    (hs : isDig (lowerAscii sep) = false) (ts : List FTok) (cs : List Char)
    (acc : PVals) :
    runToks (.num (.n21 lo hi) slot :: .lit sep :: ts) cs acc =
      match splitFirst sep cs with
      | none => none
      | some (field, rest) =>
        match readN2 lo hi field with
        | none => none
        | some v => runToks ts rest (setSlot acc slot v) := by
  rcases hsp : splitFirst sep cs with _ | ⟨field, rest⟩
  · -- no separator anywhere: every candidate continuation fails at the literal
    have hnin := splitFirst_eq_none hsp
    rw [runToks_num_step]
    simp only [candConsume]
    rcases cs with _ | ⟨c1, cs1⟩
    · simp [cand2of, cand1of]
    · have h1 : ∀ x ∈ cs1, litMatch x sep = false :=
        fun x hm => hnin x (List.mem_cons_of_mem _ hm)
      rcases cs1 with _ | ⟨c2, cs2⟩
      · by_cases g1 : (isDig c1 = true) ∧ lo ≤ dval c1
        · simp only [cand2of, cand1of, if_pos g1, runToks_lit_nil]
        · simp [cand2of, cand1of, g1]
      · have h2 : ∀ x ∈ cs2, litMatch x sep = false :=
          fun x hm => h1 x (List.mem_cons_of_mem _ hm)
        by_cases g2 : (isDig c1 = true) ∧ (isDig c2 = true) ∧
            lo ≤ dval c1 * 10 + dval c2 ∧ dval c1 * 10 + dval c2 ≤ hi
        · by_cases g1 : (isDig c1 = true) ∧ lo ≤ dval c1
          · simp only [cand2of, cand1of, if_pos g2, if_pos g1,
              runToks_lit_of_notin _ _ h2, runToks_lit_of_notin _ _ h1]
          · simp only [cand2of, cand1of, if_pos g2, if_neg g1,
              runToks_lit_of_notin _ _ h2]
        · by_cases g1 : (isDig c1 = true) ∧ lo ≤ dval c1
          · simp only [cand2of, cand1of, if_neg g2, if_pos g1,
              runToks_lit_of_notin _ _ h1]
          · simp [cand2of, cand1of, g2, g1]
  · obtain ⟨w, hcs, hw, hfs⟩ := splitFirst_eq_some hsp
    subst hcs
    have hdw : isDig w = false := isDig_false_of_litMatch hs hw
    rw [runToks_num_step]
    simp only [candConsume]
    rcases field with _ | ⟨a, f1⟩
    · -- field empty: first char matches the (non-digit) separator
      simp only [List.nil_append]
      rcases rest with _ | ⟨r1, rest1⟩ <;> simp [cand2of, cand1of, readN2, hdw]
    · rcases f1 with _ | ⟨b, f2⟩
      · -- one-character field
        simp only [List.cons_append, List.nil_append]
        by_cases g1 : (isDig a = true) ∧ lo ≤ dval a
        · have hhi : dval a ≤ hi := le_trans (dval_le_9 g1.1) h9
          simp only [cand2of, cand1of, readN2, hdw, if_pos g1,
            Bool.false_eq_true, false_and, and_false, if_false,
            runToks_lit_head_match hw]
          rw [if_pos (show isDig a = true ∧ lo ≤ dval a ∧ dval a ≤ hi from
            ⟨g1.1, g1.2, hhi⟩)]
        · simp only [cand2of, cand1of, readN2, hdw, if_neg g1,
            Bool.false_eq_true, false_and, and_false, if_false]
          rw [if_neg (fun h => g1 ⟨h.1, h.2.1⟩)]
      · have hbne : litMatch b sep = false := hfs b (by simp)
        rcases f2 with _ | ⟨c, f3⟩
        · -- two-character field
          simp only [List.cons_append, List.nil_append]
          by_cases g2 : (isDig a = true) ∧ (isDig b = true) ∧
              lo ≤ dval a * 10 + dval b ∧ dval a * 10 + dval b ≤ hi
          · simp only [cand2of, cand1of, readN2, if_pos g2,
              runToks_lit_head_match hw]
            rcases hrun : runToks ts rest (setSlot acc slot (dval a * 10 + dval b)) with
              _ | r
            · by_cases g1 : (isDig a = true) ∧ lo ≤ dval a
              · simp only [if_pos g1, runToks_lit_head_ne hbne]
              · simp only [if_neg g1]
            · rfl
          · simp only [cand2of, cand1of, readN2, if_neg g2]
            by_cases g1 : (isDig a = true) ∧ lo ≤ dval a
            · simp only [if_pos g1, runToks_lit_head_ne hbne]
            · simp only [if_neg g1]
        · -- field of three or more characters: both candidates stop inside it
          have hcne : litMatch c sep = false := hfs c (by simp)
          simp only [List.cons_append, List.nil_append]
          by_cases g2 : (isDig a = true) ∧ (isDig b = true) ∧
              lo ≤ dval a * 10 + dval b ∧ dval a * 10 + dval b ≤ hi
          · simp only [cand2of, cand1of, readN2, if_pos g2, runToks_lit_head_ne hcne]
            by_cases g1 : (isDig a = true) ∧ lo ≤ dval a
            · simp only [if_pos g1, runToks_lit_head_ne hbne]
            · simp only [if_neg g1]
          · simp only [cand2of, cand1of, readN2, if_neg g2]
            by_cases g1 : (isDig a = true) ∧ lo ≤ dval a
            · simp only [if_pos g1, runToks_lit_head_ne hbne]
            · simp only [if_neg g1]

theorem runToks_e4_sep (slot : Slot) (sep : Char)
    (hs : isDig (lowerAscii sep) = false)
    (ts : List FTok) (cs : List Char) (acc : PVals) :
    runToks (.num .e4 slot :: .lit sep :: ts) cs acc =
      match splitFirst sep cs with
      | none => none
      | some (field, rest) =>
        match read4 field with
        | none => none
        | some v => runToks ts rest (setSlot acc slot v) := by
  rcases hsp : splitFirst sep cs with _ | ⟨field, rest⟩
  · have hnin := splitFirst_eq_none hsp
    rw [runToks_num_step]
    simp only [candConsume]
    rcases cs with _ | ⟨a, _ | ⟨b, _ | ⟨c, _ | ⟨d, cs4⟩⟩⟩⟩
    · simp [cand4]
    · simp [cand4]
    · simp [cand4]
    · simp [cand4]
    · have h4 : ∀ x ∈ cs4, litMatch x sep = false :=
        fun x hm => hnin x (by simp [hm])
      by_cases g : (isDig a = true) ∧ (isDig b = true) ∧ (isDig c = true) ∧ (isDig d = true)
      · simp only [cand4, if_pos g, runToks_lit_of_notin _ _ h4]
      · simp only [cand4, if_neg g]
  · obtain ⟨w, hcs, hw, hfs⟩ := splitFirst_eq_some hsp
    subst hcs
    have hdw : isDig w = false := isDig_false_of_litMatch hs hw
    rw [runToks_num_step]
    simp only [candConsume]
    rcases field with _ | ⟨a, _ | ⟨b, _ | ⟨c, _ | ⟨d, f4⟩⟩⟩⟩
    · simp only [List.nil_append]
      rcases rest with _ | ⟨r1, _ | ⟨r2, _ | ⟨r3, rr⟩⟩⟩ <;> simp [cand4, read4, hdw]
    · simp only [List.cons_append, List.nil_append]
      rcases rest with _ | ⟨r1, _ | ⟨r2, rr⟩⟩ <;> simp [cand4, read4, hdw]
    · simp only [List.cons_append, List.nil_append]
      rcases rest with _ | ⟨r1, rr⟩ <;> simp [cand4, read4, hdw]
    · simp [cand4, read4, hdw]
    · rcases f4 with _ | ⟨e, f5⟩
      · simp only [List.cons_append, List.nil_append]
        by_cases g : (isDig a = true) ∧ (isDig b = true) ∧ (isDig c = true) ∧
            (isDig d = true)
        · simp only [cand4, read4, if_pos g, runToks_lit_head_match hw]
          rcases runToks ts rest (setSlot acc slot
            (((dval a * 10 + dval b) * 10 + dval c) * 10 + dval d)) with _ | r <;> rfl
        · simp only [cand4, read4, if_neg g]
      · have hene : litMatch e sep = false := hfs e (by simp)
        simp only [List.cons_append, List.nil_append]
        by_cases g : (isDig a = true) ∧ (isDig b = true) ∧ (isDig c = true) ∧
            (isDig d = true)
        · simp only [cand4, read4, if_pos g, runToks_lit_head_ne hene]
        · simp only [cand4, read4, if_neg g]

theorem runToks_nil_eval (cs : List Char) (acc : PVals) :
    runToks [] cs acc = if cs.isEmpty then some acc else none := by
  simp [runToks]

theorem runToks_n21_fin (lo hi : Nat) (h9 : 9 ≤ hi) (slot : Slot)
    (cs : List Char) (acc : PVals) :
    runToks [.num (.n21 lo hi) slot] cs acc =
      match readN2 lo hi cs with
      | none => none
      | some v => some (setSlot acc slot v) := by
  rw [runToks_num_step]
  simp only [candConsume]
  rcases cs with _ | ⟨a, _ | ⟨b, cs2⟩⟩
  · simp [cand2of, cand1of, readN2]
  · by_cases g1 : (isDig a = true) ∧ lo ≤ dval a
    · have hhi : dval a ≤ hi := le_trans (dval_le_9 g1.1) h9
      simp only [cand2of, cand1of, readN2, if_pos g1, runToks_nil_eval,
        List.isEmpty_nil, if_true]
      rw [if_pos (show isDig a = true ∧ lo ≤ dval a ∧ dval a ≤ hi from
        ⟨g1.1, g1.2, hhi⟩)]
    · simp only [cand2of, cand1of, readN2, if_neg g1]
      rw [if_neg (fun h => g1 ⟨h.1, h.2.1⟩)]
  · rcases cs2 with _ | ⟨c, cs3⟩
    · by_cases g2 : (isDig a = true) ∧ (isDig b = true) ∧
          lo ≤ dval a * 10 + dval b ∧ dval a * 10 + dval b ≤ hi
      · simp only [cand2of, cand1of, readN2, if_pos g2, runToks_nil_eval,
          List.isEmpty_nil, if_true]
      · simp only [cand2of, cand1of, readN2, if_neg g2]
        by_cases g1 : (isDig a = true) ∧ lo ≤ dval a
        · simp only [if_pos g1, runToks_nil_eval, List.isEmpty_cons, if_false]
          try rfl
        · simp only [if_neg g1]
    · by_cases g2 : (isDig a = true) ∧ (isDig b = true) ∧
          lo ≤ dval a * 10 + dval b ∧ dval a * 10 + dval b ≤ hi
      · simp only [cand2of, cand1of, readN2, if_pos g2, runToks_nil_eval,
          List.isEmpty_cons, if_false]
        by_cases g1 : (isDig a = true) ∧ lo ≤ dval a
        · simp only [if_pos g1, runToks_nil_eval, List.isEmpty_cons, if_false]
          try rfl
        · simp only [if_neg g1]
          try rfl
      · simp only [cand2of, cand1of, readN2, if_neg g2]
        by_cases g1 : (isDig a = true) ∧ lo ≤ dval a
        · simp only [if_pos g1, runToks_nil_eval, List.isEmpty_cons, if_false]
          try rfl
        · simp only [if_neg g1]
          try rfl

theorem runToks_e4_fin (slot : Slot) (cs : List Char) (acc : PVals) :
    runToks [.num .e4 slot] cs acc =
      match read4 cs with
      | none => none
      | some v => some (setSlot acc slot v) := by
  rw [runToks_num_step]
  simp only [candConsume]
  rcases cs with _ | ⟨a, _ | ⟨b, _ | ⟨c, _ | ⟨d, cs4⟩⟩⟩⟩
  · simp [cand4, read4]
  · simp [cand4, read4]
  · simp [cand4, read4]
  · simp [cand4, read4]
  · rcases cs4 with _ | ⟨e, cs5⟩
    · by_cases g : (isDig a = true) ∧ (isDig b = true) ∧ (isDig c = true) ∧
          (isDig d = true)
      · simp only [cand4, read4, if_pos g, runToks_nil_eval, List.isEmpty_nil, if_true]
      · simp only [cand4, read4, if_neg g]
    · by_cases g : (isDig a = true) ∧ (isDig b = true) ∧ (isDig c = true) ∧
          (isDig d = true)
      · simp only [cand4, read4, if_pos g, runToks_nil_eval, List.isEmpty_cons, if_false]
        try rfl
      · simp only [cand4, read4, if_neg g]
        try rfl

theorem runToks_e2_fin (slot : Slot) (cs : List Char) (acc : PVals) :
    runToks [.num .e2 slot] cs acc =
      match read2 cs with
      | none => none
      | some v => some (setSlot acc slot v) := by
  rw [runToks_num_step]
  simp only [candConsume]
  rcases cs with _ | ⟨a, _ | ⟨b, cs2⟩⟩
  · simp [cand2e, read2]
  · simp [cand2e, read2]
  · rcases cs2 with _ | ⟨c, cs3⟩
    · by_cases g : (isDig a = true) ∧ (isDig b = true)
      · simp only [cand2e, read2, if_pos g, runToks_nil_eval, List.isEmpty_nil, if_true]
      · simp only [cand2e, read2, if_neg g]
    · by_cases g : (isDig a = true) ∧ (isDig b = true)
      · simp only [cand2e, read2, if_pos g, runToks_nil_eval, List.isEmpty_cons, if_false]
        try rfl
      · simp only [cand2e, read2, if_neg g]
        try rfl

/-! ## The four format theorems and the `parse_date` characterisation -/

theorem strptime_MDY4_eq (s : String) : strptimeEmb "%m/%d/%Y" s = specMDY4 s := by
  show (match runToks [FTok.num (.n21 1 12) .mon, .lit '/', .num (.n21 1 31) .day,
      .lit '/', .num .e4 .yr] s.data {} with
    | some acc => buildDT acc
    | none => none) = specMDY4 s
  rw [runToks_n21_sep 1 12 (by omega) Slot.mon '/' (by decide)
    [FTok.num (.n21 1 31) .day, .lit '/', .num .e4 .yr] s.data {}]
  rcases h1 : splitFirst '/' s.data with _ | ⟨f1, r1⟩
  · simp [specMDY4, h1]
  · simp only [specMDY4, h1]
    rcases h2 : readN2 1 12 f1 with _ | m
    · simp
    · simp only []
      rw [runToks_n21_sep 1 31 (by omega) Slot.day '/' (by decide)
        [FTok.num .e4 .yr] r1 (setSlot {} .mon m)]
      rcases h3 : splitFirst '/' r1 with _ | ⟨f2, f3⟩
      · simp
      · simp only []
        rcases h4 : readN2 1 31 f2 with _ | d
        · simp
        · simp only []
          rw [runToks_e4_fin Slot.yr f3 (setSlot (setSlot {} .mon m) .day d)]
          rcases h5 : read4 f3 with _ | y
          · simp
          · simp [buildDT, setSlot]

theorem strptime_MDY2_eq (s : String) : strptimeEmb "%m/%d/%y" s = specMDY2 s := by
  show (match runToks [FTok.num (.n21 1 12) .mon, .lit '/', .num (.n21 1 31) .day,
      .lit '/', .num .e2 .yr2] s.data {} with
    | some acc => buildDT acc
    | none => none) = specMDY2 s
  rw [runToks_n21_sep 1 12 (by omega) Slot.mon '/' (by decide)
    [FTok.num (.n21 1 31) .day, .lit '/', .num .e2 .yr2] s.data {}]
  rcases h1 : splitFirst '/' s.data with _ | ⟨f1, r1⟩
  · simp [specMDY2, h1]
  · simp only [specMDY2, h1]
    rcases h2 : readN2 1 12 f1 with _ | m
    · simp
    · simp only []
      rw [runToks_n21_sep 1 31 (by omega) Slot.day '/' (by decide)
        [FTok.num .e2 .yr2] r1 (setSlot {} .mon m)]
      rcases h3 : splitFirst '/' r1 with _ | ⟨f2, f3⟩
      · simp
      · simp only []
        rcases h4 : readN2 1 31 f2 with _ | d
        · simp
        · simp only []
          rw [runToks_e2_fin Slot.yr2 f3 (setSlot (setSlot {} .mon m) .day d)]
          rcases h5 : read2 f3 with _ | v
          · simp
          · simp [buildDT, setSlot]

theorem strptime_ISOdt_eq (s : String) :
    strptimeEmb "%Y-%m-%dT%H:%M:%S" s = specISOdt s := by
  show (match runToks [FTok.num .e4 .yr, .lit '-', .num (.n21 1 12) .mon, .lit '-',
      .num (.n21 1 31) .day, .lit 'T', .num (.n21 0 23) .hr, .lit ':',
      .num (.n21 0 59) .mi, .lit ':', .num (.n21 0 59) .sc] s.data {} with
    | some acc => buildDT acc
    | none => none) = specISOdt s
  rw [runToks_e4_sep Slot.yr '-' (by decide) _ s.data {}]
  rcases h1 : splitFirst '-' s.data with _ | ⟨f1, r1⟩
  · simp [specISOdt, h1]
  · simp only [specISOdt, h1]
    rcases h2 : read4 f1 with _ | y
    · simp
    · simp only []
      rw [runToks_n21_sep 1 12 (by omega) Slot.mon '-' (by decide) _ r1 _]
      rcases h3 : splitFirst '-' r1 with _ | ⟨f2, r2⟩
      · simp
      · simp only []
        rcases h4 : readN2 1 12 f2 with _ | m
        · simp
        · simp only []
          rw [runToks_n21_sep 1 31 (by omega) Slot.day 'T' (by decide) _ r2 _]
          rcases h5 : splitFirst 'T' r2 with _ | ⟨f3, r3⟩
          · simp
          · simp only []
            rcases h6 : readN2 1 31 f3 with _ | d
            · simp
            · simp only []
              rw [runToks_n21_sep 0 23 (by omega) Slot.hr ':' (by decide) _ r3 _]
              rcases h7 : splitFirst ':' r3 with _ | ⟨f4, r4⟩
              · simp
              · simp only []
                rcases h8 : readN2 0 23 f4 with _ | hh
                · simp
                · simp only []
                  rw [runToks_n21_sep 0 59 (by omega) Slot.mi ':' (by decide) _ r4 _]
                  rcases h9 : splitFirst ':' r4 with _ | ⟨f5, f6⟩
                  · simp
                  · simp only []
                    rcases h10 : readN2 0 59 f5 with _ | mm
                    · simp
                    · simp only []
                      rw [runToks_n21_fin 0 59 (by omega) Slot.sc f6 _]
                      rcases h11 : readN2 0 59 f6 with _ | ss
                      · simp
                      · simp [buildDT, setSlot]

theorem strptime_ISOd_eq (s : String) : strptimeEmb "%Y-%m-%d" s = specISOd s := by
  show (match runToks [FTok.num .e4 .yr, .lit '-', .num (.n21 1 12) .mon, .lit '-',
      .num (.n21 1 31) .day] s.data {} with
    | some acc => buildDT acc
    | none => none) = specISOd s
  rw [runToks_e4_sep Slot.yr '-' (by decide) _ s.data {}]
  rcases h1 : splitFirst '-' s.data with _ | ⟨f1, r1⟩
  · simp [specISOd, h1]
  · simp only [specISOd, h1]
    rcases h2 : read4 f1 with _ | y
    · simp
    · simp only []
      rw [runToks_n21_sep 1 12 (by omega) Slot.mon '-' (by decide) _ r1 _]
      rcases h3 : splitFirst '-' r1 with _ | ⟨f2, f3⟩
      · simp
      · simp only []
        rcases h4 : readN2 1 12 f2 with _ | m
        · simp
        · simp only []
          rw [runToks_n21_fin 1 31 (by omega) Slot.day f3 _]
          rcases h5 : readN2 1 31 f3 with _ | d
          · simp
          · simp [buildDT, setSlot]

theorem firstSome_four (a b c d : Option DateTime) :
    firstSome [a, b, c, d] =
      match a with
      | some x => some x
      | none =>
        match b with
        | some x => some x
        | none =>
          match c with
          | some x => some x
          | none => d := by
  rcases a with _ | x
  · rcases b with _ | x
    · rcases c with _ | x
      · rcases d with _ | x <;> rfl
      · rfl
    · rfl
  · rfl

/-- Claim C3: `parse_date` is total over strings.  A string matching one
of the four accepted patterns (month/day/4-digit-year,
month/day/2-digit-year, ISO date-time, ISO date, tried in that fixed
order, first success winning) yields the date denoted by the literal
value, as computed by the spec-side `specParse`; every other string,
including the empty string, and the absent value both yield `none`; the
result is always a defined `Option` value, never a fatal failure. -/
theorem claim_C3 :
    (∀ s : String, parse_date (some s) = specParse s) ∧ parse_date none = none := by
  refine ⟨fun s => ?_, rfl⟩
  by_cases he : s.isEmpty
  · have hs : s = "" := by
      cases s with
      | mk data =>
        cases data with
        | nil => rfl
        | cons c cs =>
          exfalso
          simp [String.isEmpty, String.endPos, String.utf8ByteSize] at he
          have h0 : String.utf8Len cs + c.utf8Size = 0 :=
            congrArg String.Pos.byteIdx he
          have hpos := Char.utf8Size_pos c
          omega
    subst hs
    rfl
  · have : parse_date (some s) =
        firstSome [strptimeEmb "%m/%d/%Y" s, strptimeEmb "%m/%d/%y" s,
          strptimeEmb "%Y-%m-%dT%H:%M:%S" s, strptimeEmb "%Y-%m-%d" s] := by
      simp [parse_date, he, fmtStrs]
    rw [this, strptime_MDY4_eq s, strptime_MDY2_eq s, strptime_ISOdt_eq s,
      strptime_ISOd_eq s, firstSome_four]
    rfl

/-! ## Stable sort lemmas -/

theorem sInsK_perm {α : Type} (key : α → Int) (x : α) (l : List α) :
    List.Perm (sInsK key x l) (x :: l) := by
  induction l with
  | nil => simp [sInsK]
  | cons y ys ih =>
    simp only [sInsK]
    by_cases h : key x ≤ key y
    · rw [if_pos h]
    · rw [if_neg h]
      exact (ih.cons y).trans (List.Perm.swap x y ys)

theorem sSortK_perm {α : Type} (key : α → Int) (l : List α) :
    List.Perm (sSortK key l) l := by
  induction l with
  | nil => simp [sSortK]
  | cons x xs ih => exact (sInsK_perm key x (sSortK key xs)).trans (ih.cons x)

theorem sInsK_pairwise {α : Type} (key : α → Int) (x : α) {l : List α}
    (h : l.Pairwise (fun a b => key a ≤ key b)) :
    (sInsK key x l).Pairwise (fun a b => key a ≤ key b) := by
  induction l with
  | nil => simp [sInsK]
  | cons y ys ih =>
    simp only [sInsK]
    by_cases hxy : key x ≤ key y
    · rw [if_pos hxy]
      refine List.Pairwise.cons ?_ h
      intro b hb
      rcases List.mem_cons.mp hb with rfl | hb'
      · exact hxy
      · exact le_trans hxy (List.rel_of_pairwise_cons h hb')
    · rw [if_neg hxy]
      have hyx : key y ≤ key x := by omega
      obtain ⟨hy, hys⟩ := List.pairwise_cons.mp h
      refine List.Pairwise.cons ?_ (ih hys)
      intro b hb
      have hmem := (sInsK_perm key x ys).mem_iff.mp hb
      rcases List.mem_cons.mp hmem with rfl | hb'
      · exact hyx
      · exact hy b hb'

theorem sSortK_pairwise {α : Type} (key : α → Int) (l : List α) :
    (sSortK key l).Pairwise (fun a b => key a ≤ key b) := by
  induction l with
  | nil => simp [sSortK]
  | cons x xs ih => exact sInsK_pairwise key x ih

theorem sInsK_filter_neg {α : Type} (key : α → Int) (x : α) (l : List α)
    (p : α → Bool) (hx : p x = false) :
    (sInsK key x l).filter p = l.filter p := by
  induction l with
  | nil => simp [sInsK, List.filter_cons, hx]
  | cons y ys ih =>
    simp only [sInsK]
    by_cases hxy : key x ≤ key y
    · rw [if_pos hxy]
      simp [List.filter_cons, hx]
    · rw [if_neg hxy]
      cases hpy : p y <;> simp [List.filter_cons, hpy, ih]

theorem sInsK_filter_pos {α : Type} (key : α → Int) (x : α) (l : List α)
    (p : α → Bool) (k0 : Int) (hp : ∀ a, p a = true → key a = k0)
    (hx : p x = true) :
    (sInsK key x l).filter p = x :: l.filter p := by
  induction l with
  | nil => simp [sInsK, List.filter_cons, hx]
  | cons y ys ih =>
    simp only [sInsK]
    by_cases hxy : key x ≤ key y
    · rw [if_pos hxy]
      simp [List.filter_cons, hx]
    · rw [if_neg hxy]
      have hpy : p y = false := by
        cases hb : p y
        · rfl
        · exfalso
          have h1 : key x = k0 := hp x hx
          have h2 : key y = k0 := hp y hb
          omega
      simp [List.filter_cons, hpy, ih]

theorem sSortK_filter {α : Type} (key : α → Int) (l : List α) (p : α → Bool)
    (k0 : Int) (hp : ∀ a, p a = true → key a = k0) :
    (sSortK key l).filter p = l.filter p := by
  induction l with
  | nil => rfl
  | cons x xs ih =>
    simp only [sSortK]
    cases hx : p x
    · rw [sInsK_filter_neg key x _ p hx, ih, List.filter_cons, hx]
      simp
    · rw [sInsK_filter_pos key x _ p k0 hp hx, ih, List.filter_cons, hx]
      simp

theorem mem_dedupAux (x : String) : ∀ (l seen : List String),
    x ∈ dedupAux seen l ↔ x ∈ l ∧ x ∉ seen := by
  intro l
  induction l with
  | nil => intro seen; simp [dedupAux]
  | cons y ys ih =>
    intro seen
    by_cases hy : y ∈ seen
    · rw [dedupAux, if_pos hy, ih]
      constructor
      · rintro ⟨h1, h2⟩
        exact ⟨List.mem_cons_of_mem y h1, h2⟩
      · rintro ⟨h1, h2⟩
        rcases List.mem_cons.mp h1 with rfl | h1'
        · exact absurd hy h2
        · exact ⟨h1', h2⟩
    · rw [dedupAux, if_neg hy]
      constructor
      · intro h
        rcases List.mem_cons.mp h with rfl | h'
        · exact ⟨List.mem_cons_self x ys, hy⟩
        · obtain ⟨h1, h2⟩ := (ih (y :: seen)).mp h'
          exact ⟨List.mem_cons_of_mem y h1,
            fun hm => h2 (List.mem_cons_of_mem y hm)⟩
      · rintro ⟨h1, h2⟩
        rcases List.mem_cons.mp h1 with rfl | h1'
        · exact List.mem_cons_self x _
        · by_cases hxy : x = y
          · subst hxy
            exact List.mem_cons_self x _
          · exact List.mem_cons_of_mem y ((ih (y :: seen)).mpr
              ⟨h1', fun hm => (List.mem_cons.mp hm).elim hxy h2⟩)

theorem mem_dedupFO (l : List String) (x : String) : x ∈ dedupFO l ↔ x ∈ l := by
  rw [dedupFO, mem_dedupAux]
  simp

/-! ## Error lemmas of the sorted listing -/

theorem renderRow_err {today : DateTime} {r : DomainRec} {e : PyErr}
    (h : renderRow today r = .error e) : e = .typeError := by
  rcases hn : r.name with _ | n
  · simp [renderRow, pyFmtOpt, hn] at h
    exact h.symm
  · rcases hw : r.whois_guard with _ | w
    · simp [renderRow, pyFmtOpt, hn, hw] at h
      exact h.symm
    · simp [renderRow, pyFmtOpt, hn, hw] at h

theorem renderRow_whois_none {today : DateTime} {r : DomainRec}
    (hw : r.whois_guard = none) : renderRow today r = .error .typeError := by
  rcases hn : r.name with _ | n <;> simp [renderRow, pyFmtOpt, hn, hw]

theorem renderRows_err {today : DateTime} :
    ∀ {l : List DomainRec} {e : PyErr},
      renderRows today l = .error e → e = .typeError := by
  intro l
  induction l with
  | nil => intro e h; simp [renderRows] at h
  | cons r rs ih =>
    intro e h
    rw [renderRows] at h
    rcases hr : renderRow today r with er | s
    · rw [hr] at h
      cases h
      exact renderRow_err hr
    · rw [hr] at h
      rcases hrs : renderRows today rs with er | ss
      · rw [hrs] at h
        cases h
        exact ih hrs
      · rw [hrs] at h
        cases h

theorem renderRows_err_of_mem {today : DateTime} :
    ∀ {l : List DomainRec} {r : DomainRec}, r ∈ l →
      renderRow today r = .error .typeError →
      renderRows today l = .error .typeError := by
  intro l
  induction l with
  | nil => intro r h; cases h
  | cons x xs ih =>
    intro r hmem hr
    rcases List.mem_cons.mp hmem with rfl | hmem'
    · rw [renderRows, hr]
    · rw [renderRows]
      rcases hx : renderRow today x with er | s
      · have := renderRow_err hx
        subst this
        rfl
      · rw [ih hmem' hr]

/-! ## The claims about the fetcher -/

/-- Claim C10: for every domain element, each boolean field of the
extracted record (`is_expired`, `is_locked`, `auto_renew`,
`is_premium`, `is_our_dns`) is true exactly when the corresponding XML
attribute is present and equal to the literal string `"true"`; an
absent attribute or any other value, including `"True"` and `"TRUE"`,
gives false. -/
theorem claim_C10 (attrs : List (String × String)) :
    ((extractDomain attrs).is_expired = true ↔
      attrGet attrs "IsExpired" = some "true") ∧
    ((extractDomain attrs).is_locked = true ↔
      attrGet attrs "IsLocked" = some "true") ∧
    ((extractDomain attrs).auto_renew = true ↔
      attrGet attrs "AutoRenew" = some "true") ∧
    ((extractDomain attrs).is_premium = true ↔
      attrGet attrs "IsPremium" = some "true") ∧
    ((extractDomain attrs).is_our_dns = true ↔
      attrGet attrs "IsOurDNS" = some "true") ∧
    (extractDomain [("IsExpired", "True")]).is_expired = false ∧
    (extractDomain [("IsExpired", "TRUE")]).is_expired = false ∧
    (extractDomain []).is_expired = false := by
  refine ⟨?_, ?_, ?_, ?_, ?_, by decide, by decide, by decide⟩ <;>
    simp [extractDomain]

/-- Claim C8: `get_domains` returns the empty list whenever the
transport status is not 200, and whenever the root `Status` attribute
is not `"OK"`; in the latter case the code/message line of every
embedded error element is printed before the empty list is returned. -/
theorem claim_C8 (resp : HttpResp) :
    (resp.status_code ≠ 200 → (get_domains resp).result = .ok []) ∧
    (∀ root, resp.status_code = 200 → resp.parsed = some root →
      root.status ≠ some "OK" →
      (get_domains resp).result = .ok [] ∧
      ∀ e ∈ root.errors, errLine e ∈ (get_domains resp).printed) := by
  constructor
  · intro h
    rw [get_domains, if_pos h]
  · intro root h200 hp hst
    have hcond : ¬ (resp.status_code ≠ 200) := fun hc => hc h200
    rw [get_domains, if_neg hcond, hp]
    simp only [if_pos hst]
    constructor
    · simp
    · exact fun e he => List.mem_map_of_mem errLine he

/-- Claim C8 witness at a 500 response and at a 200 response whose
API-level status is `"ERROR"` with one embedded error element. -/
theorem claim_C8_witness :
    (get_domains c8resp500).result = .ok [] ∧
    (get_domains c8respErr).result = .ok [] ∧
    errLine c8err ∈ (get_domains c8respErr).printed := by
  refine ⟨(claim_C8 c8resp500).1 (by decide), ?_, ?_⟩
  · exact ((claim_C8 c8respErr).2 c8root rfl rfl (by decide)).1
  · exact ((claim_C8 c8respErr).2 c8root rfl rfl (by decide)).2 c8err (by decide)

/-- Claim C2 counterexample: on a transport-level failure (status 500)
nothing is written to `api_response.xml` — the write is absent, not
merely different — so the body is not written "regardless of the
transport-level status code". -/
theorem claim_C2_counterexample :
    resp500.status_code ≠ 200 ∧ (get_domains resp500).fileWrite = none ∧
      ¬ (get_domains resp500).fileWrite = some resp500.body := by
  refine ⟨by decide, rfl, ?_⟩
  intro h
  cases h

/-- Claim C2 (amended): the raw response body is written to
`api_response.xml` exactly when the transport-level status is 200 (the
write does not depend on the API-level status or on the body being
well-formed XML); on any other status code nothing is written. -/
theorem claim_C2 (resp : HttpResp) :
    (resp.status_code = 200 → (get_domains resp).fileWrite = some resp.body) ∧
    (resp.status_code ≠ 200 → (get_domains resp).fileWrite = none) := by
  constructor
  · intro h200
    have hcond : ¬ (resp.status_code ≠ 200) := fun hc => hc h200
    rw [get_domains, if_neg hcond]
    rcases hp : resp.parsed with _ | root
    · rfl
    · by_cases hst : root.status ≠ some "OK"
      · simp only [if_pos hst]
      · simp only [if_neg hst]
  · intro h
    rw [get_domains, if_pos h]

/-- Claim C2 witness: the write happens at a 200 response and does not
at a 500 response. -/
theorem claim_C2_witness :
    (get_domains respOkC2).fileWrite = some respOkC2.body ∧
    (get_domains resp500).fileWrite = none :=
  ⟨(claim_C2 respOkC2).1 rfl, (claim_C2 resp500).2 (by decide)⟩

/-! ## The claims about the reporter -/

/-- Claim C6: the expiry annotation of a record with a parsed date is
determined by the days-to-expiry computed against the report
timestamp: in `(0, 30]` the line carries the RENEW SOON marker, at or
below 0 the EXPIRED marker, and above 30 the plain days-remaining
count. -/
theorem claim_C6 (today e : DateTime) (base : String) :
    (0 < deltaDays today e ∧ deltaDays today e ≤ 30 →
      annotate base (deltaDays today e) =
        base ++ " (" ++ toString (deltaDays today e) ++ " days left) - RENEW SOON!") ∧
    (deltaDays today e ≤ 0 →
      annotate base (deltaDays today e) = base ++ " - EXPIRED!") ∧
    (30 < deltaDays today e →
      annotate base (deltaDays today e) =
        base ++ " (" ++ toString (deltaDays today e) ++ " days left)") := by
  refine ⟨fun h => ?_, fun h => ?_, fun h => ?_⟩
  · rw [annotate, if_pos h]
  · rw [annotate, if_neg (fun hc => by omega), if_pos h]
  · rw [annotate, if_neg (fun hc => by omega), if_neg (by omega)]

/-- Claim C6 witness: a date 15 days ahead of the report time gets the
RENEW SOON marker and a date 400 days behind gets the EXPIRED marker. -/
theorem claim_C6_witness :
    annotate "01/16/2026" (deltaDays todayT c6soon) =
      "01/16/2026" ++ " (" ++ toString (deltaDays todayT c6soon) ++
        " days left) - RENEW SOON!" ∧
    annotate "11/27/2024" (deltaDays todayT c6past) = "11/27/2024" ++ " - EXPIRED!" :=
  ⟨(claim_C6 todayT c6soon "01/16/2026").1 (by decide),
   (claim_C6 todayT c6past "11/27/2024").2.1 (by decide)⟩

theorem sortedView_perm (domains : List DomainRec) :
    List.Perm (sortedView domains) (withDates domains) :=
  ((sSortK_perm recTs _).append (List.Perm.refl _)).trans
    (List.filter_append_perm _ _)

theorem mem_sortedView {domains : List DomainRec} {r : DomainRec} :
    r ∈ sortedView domains ↔ r ∈ withDates domains :=
  (sortedView_perm domains).mem_iff

/-- Claim C1: the statistics view never raises a division-by-zero
error: on the empty record list `display_domains` returns early,
before the percentage divisions; on a non-empty list the divisor
`total` is positive and all three divisions succeed; in no case is the
result of `display_domains` a `ZeroDivisionError`. -/
theorem claim_C1 (today : DateTime) (domains : List DomainRec) :
    (domains = [] → display_domains today domains =
      .ok { noDomains := true, rows := [], upcoming := [], stats := none,
            calendar := [] }) ∧
    (domains ≠ [] → ∃ st, statsView domains = .ok st) ∧
    display_domains today domains ≠ .error .zeroDivisionError := by
  have hstats : domains ≠ [] → ∃ st, statsView domains = .ok st := by
    intro hne
    have hlen : (domains.length : ℚ) ≠ 0 :=
      Nat.cast_ne_zero.mpr (fun h0 => hne (List.length_eq_zero.mp h0))
    refine ⟨{ total := domains.length
              autoRenewCount := domains.countP (fun d => d.auto_renew)
              lockedCount := domains.countP (fun d => d.is_locked)
              whoisGuardCount := domains.countP (fun d => d.whois_guard == some "ENABLED")
              autoRenewPct := (domains.countP (fun d => d.auto_renew) : ℚ) /
                (domains.length : ℚ) * 100
              lockedPct := (domains.countP (fun d => d.is_locked) : ℚ) /
                (domains.length : ℚ) * 100
              whoisGuardPct := (domains.countP (fun d => d.whois_guard == some "ENABLED") : ℚ) /
                (domains.length : ℚ) * 100 }, ?_⟩
    rw [statsView]
    simp only [pyDiv, if_neg hlen]
  refine ⟨?_, hstats, ?_⟩
  · rintro rfl
    rfl
  · by_cases hne : domains.isEmpty = true
    · rw [display_domains, if_pos hne]
      simp
    · rw [display_domains, if_neg hne]
      have hne' : domains ≠ [] := by
        cases domains
        · simp at hne
        · simp
      rcases hr : renderRows today (sortedView domains) with er | rows
      · have := renderRows_err hr
        subst this
        simp
      · obtain ⟨st, hst⟩ := hstats hne'
        rw [hst]
        simp

/-- Claim C1 witness: the empty list returns the early result without
statistics, and a one-element list has a defined statistics view. -/
theorem claim_C1_witness :
    display_domains todayT [] =
      .ok { noDomains := true, rows := [], upcoming := [], stats := none,
            calendar := [] } ∧
    ∃ st, statsView [c1rec] = .ok st :=
  ⟨(claim_C1 todayT []).1 rfl, (claim_C1 todayT [c1rec]).2.1 (by decide)⟩

/-- Claim C9: `display_domains` is not total over records whose
`WhoisGuard` attribute is absent: a record with `whois_guard = None`
makes its sorted-listing row raise `TypeError` (width-formatting of
`None`), so the whole report run fails instead of listing the
record. -/
theorem claim_C9 (today : DateTime) (domains : List DomainRec) (r : DomainRec)
    (hmem : r ∈ domains) (hw : r.whois_guard = none) :
    display_domains today domains = .error .typeError := by
  have hne : ¬ (domains.isEmpty = true) := by
    cases domains
    · cases hmem
    · simp
  have h1 : ({ r with expiry_date_obj := parse_date r.expires } : DomainRec) ∈
      withDates domains := List.mem_map_of_mem _ hmem
  have h2 : ({ r with expiry_date_obj := parse_date r.expires } : DomainRec) ∈
      sortedView domains := mem_sortedView.mpr h1
  have h3 : renderRow today ({ r with expiry_date_obj := parse_date r.expires }) =
      .error .typeError := renderRow_whois_none hw
  rw [display_domains, if_neg hne, renderRows_err_of_mem h2 h3]

/-- Claim C9 witness: one record with an absent `WhoisGuard` makes the
report raise `TypeError`. -/
theorem claim_C9_witness : display_domains todayT [c9rec] = .error .typeError :=
  claim_C9 todayT [c9rec] c9rec (List.mem_singleton.mpr rfl) rfl

/-- Claim C5: the upcoming-renewals view is exactly the subset of the
(date-attached) records having a parsed expiry date whose days to
expiry `d` satisfies `0 < d ≤ 90`; concretely, a record expiring on
the report day (`d = 0`) is excluded and a record expiring 90 days
later (`d = 90`) is included. -/
theorem claim_C5 :
    (∀ (today : DateTime) (domains : List DomainRec) (r : DomainRec),
      r ∈ upcomingView today domains ↔
        r ∈ withDates domains ∧ ∃ e, r.expiry_date_obj = some e ∧
          0 < deltaDays today e ∧ deltaDays today e ≤ 90) ∧
    upcomingView todayT [c5rec0, c5rec90] =
      [{ c5rec90 with expiry_date_obj := some ⟨2026, 4, 1, 0, 0, 0⟩ }] := by
  constructor
  · intro today domains r
    rw [upcomingView, List.mem_filter, mem_sortedView]
    constructor
    · rintro ⟨h1, h2⟩
      refine ⟨h1, ?_⟩
      rcases ho : r.expiry_date_obj with _ | e
      · rw [ho] at h2
        cases h2
      · rw [ho] at h2
        exact ⟨e, rfl, of_decide_eq_true h2⟩
    · rintro ⟨h1, e, he, hlt, hle⟩
      refine ⟨h1, ?_⟩
      rw [he]
      exact decide_eq_true ⟨hlt, hle⟩
  · decide

theorem dispLe_of_right_none {a b : DomainRec} (hb : b.expiry_date_obj = none) :
    dispLe a b := by
  rcases ha : a.expiry_date_obj with _ | x <;> simp [dispLe, ha, hb]

/-- Claim C4: the sorted listing is a stable total ordering of the
date-attached record list: it is a permutation of it, every record
with a parsed date precedes every record without one, parsed dates are
non-decreasing, and the records of any fixed parsed-date value
(including the unparseable ones, `k = none`) keep their original
relative order. -/
theorem claim_C4 (domains : List DomainRec) :
    List.Perm (sortedView domains) (withDates domains) ∧
    (sortedView domains).Pairwise dispLe ∧
    ∀ k : Option DateTime,
      (sortedView domains).filter (fun r => r.expiry_date_obj == k) =
        (withDates domains).filter (fun r => r.expiry_date_obj == k) := by
  refine ⟨sortedView_perm domains, ?_, ?_⟩
  · rw [sortedView, List.pairwise_append]
    refine ⟨?_, ?_, ?_⟩
    · refine List.Pairwise.imp_of_mem ?_ (sSortK_pairwise recTs _)
      intro a b hma hmb hk
      have ha := (List.mem_filter.mp ((sSortK_perm recTs _).mem_iff.mp hma)).2
      have hb := (List.mem_filter.mp ((sSortK_perm recTs _).mem_iff.mp hmb)).2
      rcases hoa : a.expiry_date_obj with _ | x
      · rw [hoa] at ha
        simp at ha
      · rcases hob : b.expiry_date_obj with _ | y
        · rw [hob] at hb
          simp at hb
        · simp only [recTs, hoa, hob] at hk
          simp only [dispLe, hoa, hob]
          exact_mod_cast hk
    · refine List.pairwise_of_forall_mem_list ?_
      intro a hma b hmb
      have hb := (List.mem_filter.mp hmb).2
      refine dispLe_of_right_none ?_
      rcases hob : b.expiry_date_obj with _ | y
      · rfl
      · rw [hob] at hb
        simp at hb
    · intro a hma b hmb
      have hb := (List.mem_filter.mp hmb).2
      refine dispLe_of_right_none ?_
      rcases hob : b.expiry_date_obj with _ | y
      · rfl
      · rw [hob] at hb
        simp at hb
  · intro k
    rw [sortedView, List.filter_append]
    rcases k with _ | dt
    · have hleft : (sSortK recTs ((withDates domains).filter
          (fun r => r.expiry_date_obj.isSome))).filter
          (fun r => r.expiry_date_obj == none) = [] := by
        apply List.Perm.eq_nil
        refine List.Perm.trans (List.Perm.filter _ (sSortK_perm recTs _)) ?_
        rw [List.filter_filter]
        have hnil : ((withDates domains).filter
            (fun a => (a.expiry_date_obj == none) && a.expiry_date_obj.isSome)) = [] := by
          apply List.filter_eq_nil_iff.mpr
          intro a hma
          rcases ho : a.expiry_date_obj with _ | x <;> simp [ho]
        rw [hnil]
      rw [hleft, List.nil_append, List.filter_filter]
      apply List.filter_congr
      intro a hma
      rcases ho : a.expiry_date_obj with _ | x <;> simp [ho]
    · have hinv : ((withDates domains).filter
          (fun r => !r.expiry_date_obj.isSome)).filter
          (fun r => r.expiry_date_obj == some dt) = [] := by
        rw [List.filter_filter]
        apply List.filter_eq_nil_iff.mpr
        intro a hma
        rcases ho : a.expiry_date_obj with _ | x <;> simp [ho]
      have hp : ∀ a : DomainRec,
          (a.expiry_date_obj == some dt) = true → recTs a = (tsOf dt : Int) := by
        intro a hpa
        have ha : a.expiry_date_obj = some dt := by simpa using hpa
        simp [recTs, ha]
      rw [hinv, List.append_nil, sSortK_filter recTs _ _ ((tsOf dt : Int)) hp,
        List.filter_filter]
      apply List.filter_congr
      intro a hma
      rcases ho : a.expiry_date_obj with _ | x <;> simp [ho]

/-- Claim C7: in the calendar view the group labels print in
chronological `month_year_key` order (year first, then the fixed
month-name-to-number mapping, unparseable labels keyed to the end);
exactly the records with a parsed date are grouped, each under the
full-month-name/year label of its date; and the two labels
"January 2027" and "December 2025" sort as December 2025 first. -/
theorem claim_C7 (domains : List DomainRec) :
    ((calendarView domains).map Prod.fst).Pairwise
      (fun l1 l2 => month_year_key l1 ≤ month_year_key l2) ∧
    (∀ r ∈ withDates domains, ∀ e, r.expiry_date_obj = some e →
      ∃ g ∈ calendarView domains, g.1 = labelOf e ∧ r ∈ g.2) ∧
    (∀ r ∈ withDates domains, r.expiry_date_obj = none →
      ∀ g ∈ calendarView domains, r ∉ g.2) ∧
    (∀ g ∈ calendarView domains, ∀ r ∈ g.2,
      r ∈ withDates domains ∧ ∃ e, r.expiry_date_obj = some e ∧ labelOf e = g.1) ∧
    sSortK month_year_key ["January 2027", "December 2025"] =
      ["December 2025", "January 2027"] := by
  refine ⟨?_, ?_, ?_, ?_, by decide⟩
  · rw [calendarView, List.map_map]
    have hid : (Prod.fst ∘ fun lab => (lab, (sortedView domains).filter
        (fun r => rowLabel r == some lab))) = id := rfl
    rw [hid, List.map_id]
    exact sSortK_pairwise month_year_key _
  · intro r hr e he
    have hrs : r ∈ sortedView domains := mem_sortedView.mpr hr
    have hlab : rowLabel r = some (labelOf e) := by
      rw [rowLabel, he]
      rfl
    have hmem3 : labelOf e ∈ sSortK month_year_key
        (dedupFO ((sortedView domains).filterMap rowLabel)) :=
      (sSortK_perm _ _).mem_iff.mpr
        ((mem_dedupFO _ _).mpr (List.mem_filterMap.mpr ⟨r, hrs, hlab⟩))
    refine ⟨(labelOf e, (sortedView domains).filter
        (fun x => rowLabel x == some (labelOf e))), ?_, rfl, ?_⟩
    · rw [calendarView]
      exact List.mem_map_of_mem _ hmem3
    · refine List.mem_filter.mpr ⟨hrs, ?_⟩
      rw [hlab]
      simp
  · intro r hr hnone g hg hrg
    rw [calendarView] at hg
    obtain ⟨lab, hlab, rfl⟩ := List.mem_map.mp hg
    have hpred := (List.mem_filter.mp hrg).2
    rw [rowLabel, hnone] at hpred
    simp at hpred
  · intro g hg r hrg
    rw [calendarView] at hg
    obtain ⟨lab, hlab, rfl⟩ := List.mem_map.mp hg
    obtain ⟨hrs, hpred⟩ := List.mem_filter.mp hrg
    refine ⟨mem_sortedView.mp hrs, ?_⟩
    have hsome : rowLabel r = some lab := by simpa using hpred
    rcases ho : r.expiry_date_obj with _ | e
    · rw [rowLabel, ho] at hsome
      cases hsome
    · rw [rowLabel, ho] at hsome
      simp at hsome
      exact ⟨e, rfl, hsome⟩

/-- Claim C7 witness: the December 2025 record lands in the group
labeled "December 2025". -/
theorem claim_C7_witness :
    ∃ g ∈ calendarView [c7rec], g.1 = labelOf ⟨2025, 12, 15, 0, 0, 0⟩ ∧
      ({ c7rec with expiry_date_obj := some ⟨2025, 12, 15, 0, 0, 0⟩ } : DomainRec) ∈ g.2 :=
  (claim_C7 [c7rec]).2.1
    ({ c7rec with expiry_date_obj := some ⟨2025, 12, 15, 0, 0, 0⟩ })
    (by decide) ⟨2025, 12, 15, 0, 0, 0⟩ rfl

end Namecheap
